import Mathlib

/-!
Verification development for the Teapot CLI wizard: a shallow embedding of
the configuration data model (`internal/models`), the render cache
(`internal/cache/structure.go`), the navigation state machine
(`internal/navigation`), and the wizard controller (`internal/ui/app.go`),
together with theorems settling the specification's claims about them.
Machine integers are modelled as `Nat`/`Int`; Go maps keyed by strings are
modelled as insertion-ordered association lists; Go's nondeterministic map
iteration is determinized to that insertion order.
-/

namespace Teapot

/-! ## Data model (`internal/models`) -/

/-- `models.Screen`: the enumerated wizard screens (Go `int` constants). -/
inductive Screen where
  | WelcomeScreen
  | ProjectSetupScreen
  | ArchitectureScreen
  | AddAppsScreen
  | AppConfigScreen
  | AddAnotherAppScreen
  | DevToolsScreen
  | InfrastructureScreen
  | CIPipelineScreen
  | AIToolsScreen
  | YAMLPreviewScreen
  | GeneratingScreen
  | CompleteScreen
deriving DecidableEq, Fintype

open Screen

/-- `models.AppType` is a Go string type; its values are open strings. -/
abbrev AppType := String

def AppTypeReact : AppType := "react"

def AppTypeNext : AppType := "next"

def AppTypeNest : AppType := "nest"

/-- `models.ArchitectureType` is a Go string type. -/
abbrev ArchitectureType := String

def ArchitectureTurborepo : ArchitectureType := "turborepo"

def ArchitectureSingle : ArchitectureType := "single"

/-- Values of the open `map[string]interface{}` option bags
(booleans, strings, numbers per the screens that fill them). -/
inductive OptionVal where
  | boolVal (b : Bool)
  | strVal (s : String)
  | natVal (n : Nat)
deriving DecidableEq

/-- `models.Application`. -/
structure Application where
  id : String
  name : String
  type : AppType
  description : String
  options : List (String × OptionVal)
deriving DecidableEq

/-- `models.DevTools`. -/
structure DevTools where
  linting : String
  typescript : Bool
  husky : Bool
  lintStaged : Bool
deriving DecidableEq

/-- `models.Infrastructure`. -/
structure Infrastructure where
  docker : Bool
  dockerCompose : Bool
  pulumi : Bool
  terraform : Bool
  cloudProvider : String
deriving DecidableEq

/-- `models.CIPipeline`. -/
structure CIPipeline where
  provider : String
  features : List String
deriving DecidableEq

/-- `models.AITools`. -/
structure AITools where
  editor : String
  extensions : List String
deriving DecidableEq

/-- `models.ProjectConfig`. -/
structure ProjectConfig where
  name : String
  description : String
  architecture : ArchitectureType
  applications : List Application
  devTools : DevTools
  infrastructure : Infrastructure
  ciPipeline : CIPipeline
  aiTools : AITools
deriving DecidableEq

/-- Go's `models.ProjectConfig{}` zero value. -/
def emptyProjectConfig : ProjectConfig where
  name := ""
  description := ""
  architecture := ""
  applications := []
  devTools := ⟨"", false, false, false⟩
  infrastructure := ⟨false, false, false, false, ""⟩
  ciPipeline := ⟨"", []⟩
  aiTools := ⟨"", []⟩

/-- `models.AppState`. -/
structure AppState where
  currentScreen : Screen
  project : ProjectConfig
  currentApp : Option Application
  currentAppIndex : Int
  quitting : Bool
deriving DecidableEq

/-! ## Render cache (`internal/cache/structure.go`)

Times (`time.Time` instants and the `time.Duration` TTL) are modelled as
`Nat` nanosecond counts on Go's monotonic clock, so `time.Since(t)` at
instant `now` is `now - t` with `t ≤ now` in every actual execution.
The Go `map[string]cacheEntry` is an association list with unique keys;
`m[k] = v` replaces in place or appends, and map iteration is list order. -/

/-- `cache.cacheEntry`. -/
structure CacheEntry where
  content : String
  timestamp : Nat
  hits : Nat
deriving DecidableEq

/-- `cache.StructureCache` (the mutex guards concurrency only and has no
sequential semantics). -/
structure StructureCache where
  cache : List (String × CacheEntry)
  maxSize : Nat
  ttl : Nat
deriving DecidableEq

/-- Go map lookup `m[k]`. -/
def lookupE : List (String × CacheEntry) → String → Option CacheEntry
  | [], _ => none
  | (k', e) :: rest, k => if k' = k then some e else lookupE rest k

/-- Go map assignment `m[k] = e`: replace the key's entry or add the key. -/
def setE : List (String × CacheEntry) → String → CacheEntry → List (String × CacheEntry)
  | [], k, e => [(k, e)]
  | (k', e') :: rest, k, e =>
      if k' = k then (k, e) :: rest else (k', e') :: setE rest k e

/-- Go `delete(m, k)`. -/
def eraseE : List (String × CacheEntry) → String → List (String × CacheEntry)
  | [], _ => []
  | (k', e') :: rest, k => if k' = k then rest else (k', e') :: eraseE rest k

/-- The replacement test of the `evictLeastUsed` loop body:
`entry.hits < oldestEntry.hits || (entry.hits == oldestEntry.hits &&
entry.timestamp.Before(oldestEntry.timestamp))`. -/
def entLT (e best : CacheEntry) : Bool :=
  e.hits < best.hits || (e.hits == best.hits && e.timestamp < best.timestamp)

/-- The `evictLeastUsed` scan after the first iteration seeded `best`. -/
def selectGo : (String × CacheEntry) → List (String × CacheEntry) → String × CacheEntry
  | best, [] => best
  | best, (k, e) :: rest => selectGo (if entLT e best.2 then (k, e) else best) rest

/-- The full `evictLeastUsed` scan: `isFirst` makes the first element the
initial `best`; an empty map selects nothing. -/
def selectEvict : List (String × CacheEntry) → Option (String × CacheEntry)
  | [] => none
  | (k, e) :: rest => some (selectGo (k, e) rest)

/-- `StructureCache.evictLeastUsed`: remove the selected entry, guarded by
`oldestKey != ""`. -/
def evictLeastUsed (c : List (String × CacheEntry)) : List (String × CacheEntry) :=
  match selectEvict c with
  | none => c
  | some (k, _) => if k = "" then c else eraseE c k

/-- `cache.NewStructureCache`. -/
def NewStructureCache (maxSize : Nat) (ttl : Nat) : StructureCache where
  cache := []
  maxSize := maxSize
  ttl := ttl

/-- `StructureCache.GetStructure` after the key has been computed: returns
the rendered content, the hit flag, and the updated cache (miss on absent
key; lazy eviction when the entry's age exceeds the TTL; a hit increments
the entry's hit counter). -/
def StructureCache.GetStructureK (sc : StructureCache) (key : String) (now : Nat) :
    String × Bool × StructureCache :=
  match lookupE sc.cache key with
  | none => ("", false, sc)
  | some entry =>
      if sc.ttl < now - entry.timestamp then
        ("", false, { sc with cache := eraseE sc.cache key })
      else
        (entry.content, true, { sc with cache := setE sc.cache key { entry with hits := entry.hits + 1 } })

/-- `StructureCache.SetStructure` after the key has been computed: evict
when at capacity, then store the fresh entry with zero hits. -/
def StructureCache.SetStructureK (sc : StructureCache) (key : String) (now : Nat)
    (content : String) : StructureCache :=
  let c := if sc.maxSize ≤ sc.cache.length then evictLeastUsed sc.cache else sc.cache
  { sc with cache := setE c key ⟨content, now, 0⟩ }

/-- `StructureCache.Clear`. -/
def StructureCache.Clear (sc : StructureCache) : StructureCache :=
  { sc with cache := [] }

/-- `StructureCache.CleanupExpired`. -/
def StructureCache.CleanupExpired (sc : StructureCache) (now : Nat) : StructureCache :=
  { sc with cache := sc.cache.filter (fun p => !(sc.ttl < now - p.2.timestamp)) }

/-! ## Cache key computation (`generateKey` / `hashProject`)

`hashProject` marshals a reduced struct to JSON (Go `encoding/json`:
declaration field order, HTML-escaping on) and hashes it with SHA-256,
printed as lowercase hex (`fmt.Sprintf("%x", hash)`); `generateKey` then
marshals `cacheKey{projectHash, width, height}`. SHA-256 is implemented
below over byte lists with `Nat` words reduced mod `2^32`. -/

def M32 : Nat := 4294967296

def rotr32 (n x : Nat) : Nat := x / 2 ^ n + x % 2 ^ n * 2 ^ (32 - n)

def bsig0 (x : Nat) : Nat := (rotr32 2 x) ^^^ (rotr32 13 x) ^^^ (rotr32 22 x)

def bsig1 (x : Nat) : Nat := (rotr32 6 x) ^^^ (rotr32 11 x) ^^^ (rotr32 25 x)

def ssig0 (x : Nat) : Nat := (rotr32 7 x) ^^^ (rotr32 18 x) ^^^ (x / 2 ^ 3)

def ssig1 (x : Nat) : Nat := (rotr32 17 x) ^^^ (rotr32 19 x) ^^^ (x / 2 ^ 10)

def chF (x y z : Nat) : Nat := (x &&& y) ^^^ ((x ^^^ 4294967295) &&& z)

def majF (x y z : Nat) : Nat := (x &&& y) ^^^ (x &&& z) ^^^ (y &&& z)

/-- The 64 SHA-256 round constants of FIPS 180-4, in decimal. -/
def sha256K : List Nat :=
  [1116352408, 1899447441, 3049323471, 3921009573, 961987163, 1508970993,
   2453635748, 2870763221, 3624381080, 310598401, 607225278, 1426881987,
   1925078388, 2162078206, 2614888103, 3248222580, 3835390401, 4022224774,
   264347078, 604807628, 770255983, 1249150122, 1555081692, 1996064986,
   2554220882, 2821834349, 2952996808, 3210313671, 3336571891, 3584528711,
   113926993, 338241895, 666307205, 773529912, 1294757372, 1396182291,
   1695183700, 1986661051, 2177026350, 2456956037, 2730485921, 2820302411,
   3259730800, 3345764771, 3516065817, 3600352804, 4094571909, 275423344,
   430227734, 506948616, 659060556, 883997877, 958139571, 1322822218,
   1537002063, 1747873779, 1955562222, 2024104815, 2227730452, 2361852424,
   2428436474, 2756734187, 3204031479, 3329325298]

/-- The eight SHA-256 initial hash values of FIPS 180-4, in decimal. -/
def sha256H0 : List Nat :=
  [1779033703, 3144134277, 1013904242, 2773480762,
   1359893119, 2600822924, 528734635, 1541459225]

def toWords : List Nat → List Nat
  | b0 :: b1 :: b2 :: b3 :: rest => (((b0 * 256 + b1) * 256 + b2) * 256 + b3) :: toWords rest
  | _ => []

def chunk64Go : Nat → List Nat → List (List Nat)
  | 0, _ => []
  | _, [] => []
  | fuel + 1, l => l.take 64 :: chunk64Go fuel (l.drop 64)

def chunk64 (l : List Nat) : List (List Nat) := chunk64Go l.length l

def sha256Pad (msg : List Nat) : List Nat :=
  let L := msg.length
  msg ++ 128 :: List.replicate ((119 - L % 64) % 64) 0
      ++ (List.range 8).map (fun i => 8 * L / 2 ^ (8 * (7 - i)) % 256)

def sha256Extend (w16 : List Nat) : List Nat :=
  (List.range 48).foldl (fun w _ =>
    let n := w.length
    w ++ [(ssig1 (w.getD (n - 2) 0) + w.getD (n - 7) 0
           + ssig0 (w.getD (n - 15) 0) + w.getD (n - 16) 0) % M32]) w16

def sha256Round (st : List Nat) (kw : Nat × Nat) : List Nat :=
  match st with
  | [a, b, c, d, e, f, g, h] =>
      let t1 := (h + bsig1 e + chF e f g + kw.1 + kw.2) % M32
      let t2 := (bsig0 a + majF a b c) % M32
      [(t1 + t2) % M32, a, b, c, (d + t1) % M32, e, f, g]
  | other => other

def sha256Block (hs : List Nat) (block : List Nat) : List Nat :=
  let st := (sha256K.zip (sha256Extend (toWords block))).foldl sha256Round hs
  (hs.zip st).map (fun p => (p.1 + p.2) % M32)

def hexDigit (n : Nat) : Char := if n < 10 then Char.ofNat (48 + n) else Char.ofNat (87 + n)

def wordHex (w : Nat) : String :=
  String.mk ((List.range 8).map (fun i => hexDigit (w / 2 ^ (4 * (7 - i)) % 16)))

def sha256hexOfBytes (msg : List Nat) : String :=
  String.join (((chunk64 (sha256Pad msg)).foldl sha256Block sha256H0).map wordHex)

def utf8Bytes (c : Char) : List Nat :=
  let n := c.toNat
  if n < 128 then [n]
  else if n < 2048 then [192 + n / 64, 128 + n % 64]
  else if n < 65536 then [224 + n / 4096, 128 + n / 64 % 64, 128 + n % 64]
  else [240 + n / 262144, 128 + n / 4096 % 64, 128 + n / 64 % 64, 128 + n % 64]

def strBytes (s : String) : List Nat := s.data.foldr (fun c acc => utf8Bytes c ++ acc) []

def hexByteLower (n : Nat) : String := String.mk [hexDigit (n / 16 % 16), hexDigit (n % 16)]

/-- Go `encoding/json` string-character escaping with the default
HTML escaping (`"`, `\`, control characters, `<`, `>`, `&`, U+2028/9). -/
def jsonEscapeChar (c : Char) : String :=
  if c = '"' then "\\\""
  else if c = '\\' then "\\\\"
  else if c = '\n' then "\\n"
  else if c = '\r' then "\\r"
  else if c = '\t' then "\\t"
  else if c = '<' then "\\u003c"
  else if c = '>' then "\\u003e"
  else if c = '&' then "\\u0026"
  else if c.toNat < 32 then "\\u00" ++ hexByteLower c.toNat
  else if c.toNat = 8232 then "\\u2028"
  else if c.toNat = 8233 then "\\u2029"
  else String.singleton c

def jsonStr (s : String) : String :=
  "\"" ++ String.join (s.data.map jsonEscapeChar) ++ "\""

def jsonBool (b : Bool) : String := if b then "true" else "false"

def jsonStrList (l : List String) : String :=
  "[" ++ String.intercalate "," (l.map jsonStr) ++ "]"

/-- JSON of one element of `hashData.Applications`
(`struct { Type string; Name string }`). -/
def appHashJSON (a : Application) : String :=
  "\x7b\"type\":" ++ jsonStr a.type ++ ",\"name\":" ++ jsonStr a.name ++ "\x7d"

/-- JSON of `hashData.Applications`: the Go slice is built by appending to
a nil slice, so it is nil (marshalled `null`) exactly when the project has
no applications. -/
def appsHashJSON : List Application → String
  | [] => "null"
  | apps => "[" ++ String.intercalate "," (apps.map appHashJSON) ++ "]"

/-- JSON of the `hashData` struct marshalled inside `hashProject`: only
name, architecture, (type, name) per application, the infrastructure
block (including `CloudProvider`), and the CI pipeline block. -/
def hashDataJSON (p : ProjectConfig) : String :=
  "\x7b\"name\":" ++ jsonStr p.name
    ++ ",\"architecture\":" ++ jsonStr p.architecture
    ++ ",\"applications\":" ++ appsHashJSON p.applications
    ++ ",\"infrastructure\":\x7b\"docker\":" ++ jsonBool p.infrastructure.docker
    ++ ",\"dockerCompose\":" ++ jsonBool p.infrastructure.dockerCompose
    ++ ",\"pulumi\":" ++ jsonBool p.infrastructure.pulumi
    ++ ",\"terraform\":" ++ jsonBool p.infrastructure.terraform
    ++ ",\"cloudProvider\":" ++ jsonStr p.infrastructure.cloudProvider
    ++ "\x7d,\"ciPipeline\":\x7b\"provider\":" ++ jsonStr p.ciPipeline.provider
    ++ ",\"features\":" ++ jsonStrList p.ciPipeline.features
    ++ "\x7d\x7d"

/-- `StructureCache.hashProject`. -/
def hashProject (p : ProjectConfig) : String :=
  sha256hexOfBytes (strBytes (hashDataJSON p))

/-- The part of the `cacheKey` JSON determined by the project. -/
def keyPrefix (p : ProjectConfig) : String :=
  "\x7b\"projectHash\":" ++ jsonStr (hashProject p)

/-- The part of the `cacheKey` JSON determined by the terminal size. -/
def dimsSuffix (terminalWidth terminalHeight : Int) : String :=
  ",\"terminalWidth\":" ++ toString terminalWidth
    ++ ",\"terminalHeight\":" ++ toString terminalHeight ++ "\x7d"

/-- `StructureCache.generateKey`: the JSON of
`cacheKey{ProjectHash, TerminalWidth, TerminalHeight}`. -/
def generateKey (p : ProjectConfig) (terminalWidth terminalHeight : Int) : String :=
  keyPrefix p ++ dimsSuffix terminalWidth terminalHeight

/-- `StructureCache.GetStructure`. -/
def StructureCache.GetStructure (sc : StructureCache) (project : ProjectConfig)
    (terminalWidth terminalHeight : Int) (now : Nat) : String × Bool × StructureCache :=
  sc.GetStructureK (generateKey project terminalWidth terminalHeight) now

/-- `StructureCache.SetStructure`. -/
def StructureCache.SetStructure (sc : StructureCache) (project : ProjectConfig)
    (terminalWidth terminalHeight : Int) (now : Nat) (content : String) : StructureCache :=
  sc.SetStructureK (generateKey project terminalWidth terminalHeight) now content

/-! ## Screen view-models

Each `screens.New*Model` constructor call is abstracted to the constructor
and its parameters; widget-internal state (cursors, text fields) is
presentational and not modelled. -/

/-- The view-model constructor calls made by the controller and the
navigation engine. -/
inductive ScreenModelV where
  | WelcomeModel
  | ProjectSetupModel
  | ArchitectureModel
  | AddAppsModel
  | AppConfigModel (appType : AppType)
  | AddAnotherAppModel (appCount : Nat) (architecture : ArchitectureType)
  | DevToolsModel
  | InfrastructureModel
  | CIPipelineModel
  | AIToolsModel
  | GeneratingModel
  | CompleteModel (projectName : String)
deriving DecidableEq

/-! ## Navigation engine (`internal/navigation/flow.go`) -/

/-- The `transitions` map built by `NewNavigationFlow`. -/
def transitions : Screen → Option Screen
  | ProjectSetupScreen => some WelcomeScreen
  | ArchitectureScreen => some ProjectSetupScreen
  | AppConfigScreen => some AddAppsScreen
  | DevToolsScreen => some AddAnotherAppScreen
  | InfrastructureScreen => some DevToolsScreen
  | CIPipelineScreen => some InfrastructureScreen
  | AIToolsScreen => some CIPipelineScreen
  | _ => none

/-- The `conditionalTransitions` map built by `NewNavigationFlow`. -/
def conditionalTransitions : Screen → Option (AppState → Screen)
  | AddAppsScreen => some (fun state =>
      if 0 < state.project.applications.length then AddAnotherAppScreen
      else ArchitectureScreen)
  | AddAnotherAppScreen => some (fun _ => AppConfigScreen)
  | _ => none

/-- `NavigationFlow.GetPreviousScreen`. -/
def GetPreviousScreen (current : Screen) (state : AppState) : Screen :=
  match conditionalTransitions current with
  | some conditionFunc => conditionFunc state
  | none =>
      match transitions current with
      | some previous => previous
      | none => current

/-- `NavigationFlow.CanNavigateBack`. -/
def CanNavigateBack : Screen → Bool
  | WelcomeScreen => false
  | GeneratingScreen => false
  | CompleteScreen => false
  | _ => true

/-- `NavigationFlow.NavigateBack`: the Go method mutates `*AppState` in
place and returns it; here it returns the new state, the new screen, and
the optionally constructed view-model. -/
def NavigateBack (current : Screen) (state : AppState) :
    AppState × Screen × Option ScreenModelV :=
  if !CanNavigateBack current then (state, current, none)
  else if current = AddAnotherAppScreen then
    match state.project.applications.getLast? with
    | some lastApp =>
        ({ state with
            project.applications := state.project.applications.dropLast
            currentApp := some lastApp },
         AppConfigScreen, some (.AppConfigModel lastApp.type))
    | none => (state, AddAppsScreen, none)
  else
    let state1 := if current = AppConfigScreen then { state with currentApp := none } else state
    (state1, GetPreviousScreen current state1, none)

/-- `NavigationFlow.GetNextScreen`. -/
def GetNextScreen (current : Screen) (msgType : String) : Screen :=
  match current with
  | WelcomeScreen => if msgType = "WelcomeComplete" then ProjectSetupScreen else current
  | ProjectSetupScreen => if msgType = "ProjectSetupComplete" then ArchitectureScreen else current
  | ArchitectureScreen => if msgType = "ArchitectureSelected" then AddAppsScreen else current
  | AddAppsScreen => if msgType = "AppTypeSelected" then AppConfigScreen else current
  | AppConfigScreen => if msgType = "AppConfigComplete" then AddAnotherAppScreen else current
  | AddAnotherAppScreen => if msgType = "AddAnotherAppSelected" then AddAppsScreen else current
  | DevToolsScreen => if msgType = "DevToolsSelected" then InfrastructureScreen else current
  | InfrastructureScreen => if msgType = "InfrastructureSelected" then CIPipelineScreen else current
  | CIPipelineScreen => if msgType = "CIPipelineSelected" then AIToolsScreen else current
  | AIToolsScreen => if msgType = "AIToolsSelected" then GeneratingScreen else current
  | GeneratingScreen => if msgType = "GenerationComplete" then CompleteScreen else current
  | _ => current

/-- The forward-transition table realized by `GetNextScreen`'s switch:
the (screen, completion event, destination) triples it maps. -/
def forwardTable : List (Screen × String × Screen) :=
  [(WelcomeScreen, "WelcomeComplete", ProjectSetupScreen),
   (ProjectSetupScreen, "ProjectSetupComplete", ArchitectureScreen),
   (ArchitectureScreen, "ArchitectureSelected", AddAppsScreen),
   (AddAppsScreen, "AppTypeSelected", AppConfigScreen),
   (AppConfigScreen, "AppConfigComplete", AddAnotherAppScreen),
   (AddAnotherAppScreen, "AddAnotherAppSelected", AddAppsScreen),
   (DevToolsScreen, "DevToolsSelected", InfrastructureScreen),
   (InfrastructureScreen, "InfrastructureSelected", CIPipelineScreen),
   (CIPipelineScreen, "CIPipelineSelected", AIToolsScreen),
   (AIToolsScreen, "AIToolsSelected", GeneratingScreen),
   (GeneratingScreen, "GenerationComplete", CompleteScreen)]

/-! ## Wizard controller (`internal/ui/app.go`) -/

/-- `ui.Model`: wizard state plus the screen-model map and the window
dimensions. The Go `map[models.Screen]tea.Model` is modelled as a function
to `Option ScreenModelV`. -/
structure Model where
  state : AppState
  screenModels : Screen → Option ScreenModelV
  windowWidth : Int
  windowHeight : Int

/-- Go map assignment `m.screenModels[s] = v`. -/
def setSM (models : Screen → Option ScreenModelV) (s : Screen) (v : ScreenModelV) :
    Screen → Option ScreenModelV :=
  fun s' => if s' = s then some v else models s'

/-- The controller's lazy-construction idiom:
`if _, exists := m.screenModels[s]; !exists { m.screenModels[s] = v }`. -/
def ensureSM (models : Screen → Option ScreenModelV) (s : Screen) (v : ScreenModelV) :
    Screen → Option ScreenModelV :=
  if (models s).isSome then models else setSM models s v

/-- `ui.NewModel`. -/
def NewModel : Model where
  state :=
    { currentScreen := WelcomeScreen
      project := emptyProjectConfig
      currentApp := none
      currentAppIndex := 0
      quitting := false }
  screenModels := setSM (fun _ => none) WelcomeScreen .WelcomeModel
  windowWidth := 0
  windowHeight := 0

/-- The messages `Model.Update` handles: Bubble Tea key/resize events and
the per-screen completion messages. -/
inductive Msg where
  | WindowSizeMsg (width height : Int)
  | KeyCtrlC
  | KeyEsc
  | KeyBackspace
  | KeyOther (key : String)
  | WelcomeCompleteMsg
  | ProjectSetupCompleteMsg (projectName description : String)
  | ArchitectureSelectedMsg (architecture : ArchitectureType)
  | AppTypeSelectedMsg (appType : AppType)
  | AppConfigCompleteMsg (appName : String) (options : List (String × OptionVal))
  | AddAnotherAppSelectedMsg (action : String)
  | DevToolsSelectedMsg (lintingTool : String)
  | InfrastructureSelectedMsg (options : List (String × Bool))
  | CIPipelineSelectedMsg (provider : String) (features : List String)
  | AIToolsSelectedMsg (editor : String) (extensions : List String)
  | GenerationCompleteMsg
deriving DecidableEq

/-- Go `map[string]bool` lookup with the zero-value default. -/
def lookupBool (m : List (String × Bool)) (k : String) : Bool :=
  (((m.find? (fun p => p.1 == k)).map (fun p => p.2)).getD false)

/-- `Model.handleBackNavigation` (the controller's own backspace logic). -/
def Model.handleBackNavigation (m : Model) : Model :=
  match m.state.currentScreen with
  | ProjectSetupScreen => { m with state.currentScreen := WelcomeScreen }
  | ArchitectureScreen => { m with state.currentScreen := ProjectSetupScreen }
  | AddAppsScreen =>
      if 0 < m.state.project.applications.length then
        { m with
            state.currentScreen := AddAnotherAppScreen
            screenModels := ensureSM m.screenModels AddAnotherAppScreen
              (.AddAnotherAppModel m.state.project.applications.length
                m.state.project.architecture) }
      else
        { m with state.currentScreen := ArchitectureScreen }
  | AppConfigScreen =>
      { m with state.currentScreen := AddAppsScreen, state.currentApp := none }
  | AddAnotherAppScreen =>
      match m.state.project.applications.getLast? with
      | some lastApp =>
          { m with
              state.project.applications := m.state.project.applications.dropLast
              state.currentApp := some lastApp
              state.currentScreen := AppConfigScreen
              screenModels := setSM m.screenModels AppConfigScreen
                (.AppConfigModel lastApp.type) }
      | none => { m with state.currentScreen := AddAppsScreen }
  | DevToolsScreen =>
      { m with
          state.currentScreen := AddAnotherAppScreen
          screenModels := ensureSM m.screenModels AddAnotherAppScreen
            (.AddAnotherAppModel m.state.project.applications.length
              m.state.project.architecture) }
  | InfrastructureScreen => { m with state.currentScreen := DevToolsScreen }
  | CIPipelineScreen => { m with state.currentScreen := InfrastructureScreen }
  | AIToolsScreen => { m with state.currentScreen := CIPipelineScreen }
  | _ => m

/-- `Model.Update`: the controller's message dispatch. Keys not handled
globally, and messages for a non-active screen, leave the modelled state
unchanged (they only reach widget internals). -/
def Model.Update (m : Model) (msg : Msg) : Model :=
  match msg with
  | .WindowSizeMsg w h => { m with windowWidth := w, windowHeight := h }
  | .KeyCtrlC => { m with state.quitting := true }
  | .KeyEsc =>
      if m.state.currentScreen ≠ GeneratingScreen ∧ m.state.currentScreen ≠ CompleteScreen then
        { m with state.quitting := true }
      else m
  | .KeyBackspace => m.handleBackNavigation
  | .KeyOther _ => m
  | .WelcomeCompleteMsg =>
      if m.state.currentScreen = WelcomeScreen then
        { m with
            state.currentScreen := ProjectSetupScreen
            screenModels := ensureSM m.screenModels ProjectSetupScreen .ProjectSetupModel }
      else m
  | .ProjectSetupCompleteMsg projectName description =>
      if m.state.currentScreen = ProjectSetupScreen then
        { m with
            state.project.name := projectName
            state.project.description := description
            state.currentScreen := ArchitectureScreen
            screenModels := ensureSM m.screenModels ArchitectureScreen .ArchitectureModel }
      else m
  | .ArchitectureSelectedMsg architecture =>
      if m.state.currentScreen = ArchitectureScreen then
        { m with
            state.project.architecture := architecture
            state.currentScreen := AddAppsScreen
            screenModels := ensureSM m.screenModels AddAppsScreen .AddAppsModel }
      else m
  | .AppTypeSelectedMsg appType =>
      if m.state.currentScreen = AddAppsScreen then
        { m with
            state.currentApp := some
              { id := "app-" ++ appType
                name := appType
                type := appType
                description := ""
                options := [] }
            state.currentScreen := AppConfigScreen
            screenModels := setSM m.screenModels AppConfigScreen (.AppConfigModel appType) }
      else m
  | .AppConfigCompleteMsg appName options =>
      if m.state.currentScreen = AppConfigScreen then
        match m.state.currentApp with
        | some app =>
            let apps := m.state.project.applications ++ [{ app with name := appName, options := options }]
            { m with
                state.project.applications := apps
                state.currentApp := none
                state.currentScreen := AddAnotherAppScreen
                screenModels := ensureSM m.screenModels AddAnotherAppScreen
                  (.AddAnotherAppModel apps.length m.state.project.architecture) }
        | none => m
      else m
  | .AddAnotherAppSelectedMsg action =>
      if m.state.currentScreen = AddAnotherAppScreen then
        if action = "add" then
          { m with
              state.currentScreen := AddAppsScreen
              screenModels := setSM m.screenModels AddAppsScreen .AddAppsModel }
        else
          { m with
              state.currentScreen := DevToolsScreen
              screenModels := ensureSM m.screenModels DevToolsScreen .DevToolsModel }
      else m
  | .DevToolsSelectedMsg lintingTool =>
      if m.state.currentScreen = DevToolsScreen then
        { m with
            state.project.devTools := ⟨lintingTool, true, true, true⟩
            state.currentScreen := InfrastructureScreen
            screenModels := ensureSM m.screenModels InfrastructureScreen .InfrastructureModel }
      else m
  | .InfrastructureSelectedMsg options =>
      if m.state.currentScreen = InfrastructureScreen then
        { m with
            state.project.infrastructure.docker := lookupBool options "docker"
            state.project.infrastructure.dockerCompose := lookupBool options "docker-compose"
            state.project.infrastructure.pulumi := lookupBool options "pulumi"
            state.project.infrastructure.terraform := lookupBool options "terraform"
            state.currentScreen := CIPipelineScreen
            screenModels := ensureSM m.screenModels CIPipelineScreen .CIPipelineModel }
      else m
  | .CIPipelineSelectedMsg provider features =>
      if m.state.currentScreen = CIPipelineScreen then
        { m with
            state.project.ciPipeline := ⟨provider, features⟩
            state.currentScreen := AIToolsScreen
            screenModels := ensureSM m.screenModels AIToolsScreen .AIToolsModel }
      else m
  | .AIToolsSelectedMsg editor extensions =>
      if m.state.currentScreen = AIToolsScreen then
        { m with
            state.project.aiTools := ⟨editor, extensions⟩
            state.currentScreen := GeneratingScreen
            screenModels := ensureSM m.screenModels GeneratingScreen .GeneratingModel }
      else m
  | .GenerationCompleteMsg =>
      if m.state.currentScreen = GeneratingScreen then
        { m with
            state.currentScreen := CompleteScreen
            screenModels := ensureSM m.screenModels CompleteScreen
              (.CompleteModel m.state.project.name) }
      else m

/-- Run the controller on a message sequence from the fresh wizard. -/
def runMsgs (msgs : List Msg) : Model :=
  msgs.foldl Model.Update NewModel

/-! ## Call-sequence closures over the cache API -/

def cacheKeys (c : List (String × CacheEntry)) : List String := c.map Prod.fst

/-- The arguments of one `SetStructure` call. -/
structure SetOp where
  project : ProjectConfig
  width : Int
  height : Int
  time : Nat
  content : String

/-- The key a `SetStructure` call computes. -/
def SetOp.key (o : SetOp) : String := generateKey o.project o.width o.height

/-- The entry a `SetStructure` call stores. -/
def SetOp.entry (o : SetOp) : CacheEntry := ⟨o.content, o.time, 0⟩

def runSets (sc : StructureCache) (ops : List SetOp) : StructureCache :=
  ops.foldl (fun sc o => sc.SetStructure o.project o.width o.height o.time o.content) sc

/-- One call of the cache's public API. -/
inductive CacheOp where
  | get (project : ProjectConfig) (width height : Int) (now : Nat)
  | set (project : ProjectConfig) (width height : Int) (now : Nat) (content : String)
  | clear
  | cleanupExpired (now : Nat)

def applyCacheOp (sc : StructureCache) : CacheOp → StructureCache
  | .get p w h now => (sc.GetStructure p w h now).2.2
  | .set p w h now content => sc.SetStructure p w h now content
  | .clear => sc.Clear
  | .cleanupExpired now => sc.CleanupExpired now

def runCacheOps (sc : StructureCache) (ops : List CacheOp) : StructureCache :=
  ops.foldl applyCacheOp sc

/-! ## Concrete scenario inputs used by witnesses and counterexamples -/

/-- A configuration as the wizard builds it for a small demo project. -/
def demoProject : ProjectConfig where
  name := "demo"
  description := ""
  architecture := "turborepo"
  applications := []
  devTools := ⟨"", false, false, false⟩
  infrastructure := ⟨false, false, false, false, "aws"⟩
  ciPipeline := ⟨"github", []⟩
  aiTools := ⟨"", []⟩

/-- `demoProject` with only the cloud provider changed. -/
def demoProjectVercel : ProjectConfig :=
  { demoProject with infrastructure := ⟨false, false, false, false, "vercel"⟩ }

/-- `demoProject` with only the free-text description changed. -/
def demoProjectDescribed : ProjectConfig :=
  { demoProject with description := "a demo project" }

/-- Forward events driving the fresh wizard to the per-application
configuration screen with a react application in progress. -/
def demoToAppConfigMsgs : List Msg :=
  [.WelcomeCompleteMsg, .ProjectSetupCompleteMsg "demo" "",
   .ArchitectureSelectedMsg "turborepo", .AppTypeSelectedMsg "react"]

/-- The wizard at the per-application configuration screen. -/
def demoToAppConfig : Model := runMsgs demoToAppConfigMsgs

/-- The in-progress application `demoToAppConfig` carries. -/
def demoReactApp : Application := ⟨"app-react", "react", "react", "", []⟩

/-- Three `SetStructure` calls with one project at three viewports:
three distinct cache keys, inserted at times 0, 1, 2. -/
def setOpA : SetOp := ⟨demoProject, 1, 1, 0, "a"⟩

def setOpB : SetOp := ⟨demoProject, 2, 2, 1, "b"⟩

def setOpC : SetOp := ⟨demoProject, 3, 3, 2, "c"⟩

/-- Forward events committing two applications in sequence; the second
commit fires the configuration-complete transition with the "add
another?" view-model already present in the screen-model map. -/
def twoAppFlowMsgs : List Msg :=
  [.WelcomeCompleteMsg, .ProjectSetupCompleteMsg "demo" "",
   .ArchitectureSelectedMsg "turborepo", .AppTypeSelectedMsg "react",
   .AppConfigCompleteMsg "frontend" [], .AddAnotherAppSelectedMsg "add",
   .AppTypeSelectedMsg "nest", .AppConfigCompleteMsg "backend" []]

/-! ## Theorems -/

/-- C4: for every screen in the irreversible set
{welcome, generating, complete}, `CanNavigateBack` returns false and
`NavigateBack` returns the state unchanged, the same screen, and no
view-model; for every other screen of the enumerated `Screen` set,
`CanNavigateBack` returns true. -/
theorem C4_back_permission (s : Screen) (st : AppState) :
    ((s = WelcomeScreen ∨ s = GeneratingScreen ∨ s = CompleteScreen) →
      CanNavigateBack s = false ∧ NavigateBack s st = (st, s, none)) ∧
    (s ≠ WelcomeScreen → s ≠ GeneratingScreen → s ≠ CompleteScreen →
      CanNavigateBack s = true) := by
  cases s <;> simp [CanNavigateBack, NavigateBack]

/-- C4 witness: the theorem applied at the welcome screen (blocked
no-op back navigation) and at the architecture screen (back allowed). -/
theorem C4_back_permission_witness :
    (CanNavigateBack WelcomeScreen = false ∧
      NavigateBack WelcomeScreen NewModel.state = (NewModel.state, WelcomeScreen, none)) ∧
    CanNavigateBack ArchitectureScreen = true :=
  ⟨(C4_back_permission WelcomeScreen NewModel.state).1 (Or.inl rfl),
   (C4_back_permission ArchitectureScreen NewModel.state).2 (by decide) (by decide) (by decide)⟩

/-- C8: every (screen, completion event) pair outside the
forward-transition table leaves `GetNextScreen` at the current screen. -/
theorem C8_unmapped_pair_stays (s : Screen) (e : String)
    (h : ∀ d : Screen, (s, e, d) ∉ forwardTable) : GetNextScreen s e = s := by
  cases s <;>
    first
      | rfl
      | (simp only [GetNextScreen]
         split
         next he => subst he; exact absurd h (by decide)
         next => rfl)

/-- C8 witness: `GetNextScreen(welcome, "UnrecognizedEvent")` returns
welcome unchanged. -/
theorem C8_unmapped_pair_stays_witness :
    GetNextScreen WelcomeScreen "UnrecognizedEvent" = WelcomeScreen :=
  C8_unmapped_pair_stays WelcomeScreen "UnrecognizedEvent" (by decide)

/-! ### Association-list lemmas for the cache map -/

@[simp]
theorem cacheKeys_nil : cacheKeys [] = [] := rfl

@[simp]
theorem cacheKeys_cons (p : String × CacheEntry) (rest : List (String × CacheEntry)) :
    cacheKeys (p :: rest) = p.1 :: cacheKeys rest := rfl

theorem cacheKeys_append (c d : List (String × CacheEntry)) :
    cacheKeys (c ++ d) = cacheKeys c ++ cacheKeys d := by
  simp [cacheKeys]

theorem lookupE_setE_self (c : List (String × CacheEntry)) (k : String) (e : CacheEntry) :
    lookupE (setE c k e) k = some e := by
  induction c with
  | nil => simp [setE, lookupE]
  | cons p rest ih =>
      obtain ⟨k', e'⟩ := p
      by_cases h : k' = k <;> simp [setE, lookupE, h, ih]

theorem lookupE_eq_none_of_not_mem {c : List (String × CacheEntry)} {k : String}
    (h : k ∉ cacheKeys c) : lookupE c k = none := by
  induction c with
  | nil => rfl
  | cons p rest ih =>
      obtain ⟨k', e'⟩ := p
      rw [cacheKeys_cons, List.mem_cons] at h
      push_neg at h
      rw [lookupE, if_neg (fun he => h.1 he.symm)]
      exact ih h.2

theorem mem_cacheKeys_of_lookupE_some {c : List (String × CacheEntry)} {k : String}
    {e : CacheEntry} (h : lookupE c k = some e) : k ∈ cacheKeys c := by
  induction c with
  | nil => simp [lookupE] at h
  | cons p rest ih =>
      obtain ⟨k', e'⟩ := p
      rw [cacheKeys_cons, List.mem_cons]
      by_cases hk : k' = k
      · exact Or.inl hk.symm
      · rw [lookupE, if_neg hk] at h
        exact Or.inr (ih h)

theorem lookupE_eraseE_self {c : List (String × CacheEntry)} {k : String}
    (h : (cacheKeys c).Nodup) : lookupE (eraseE c k) k = none := by
  induction c with
  | nil => rfl
  | cons p rest ih =>
      obtain ⟨k', e'⟩ := p
      rw [cacheKeys_cons, List.nodup_cons] at h
      by_cases hk : k' = k
      · rw [eraseE, if_pos hk]
        exact lookupE_eq_none_of_not_mem (hk ▸ h.1)
      · rw [eraseE, if_neg hk, lookupE, if_neg hk]
        exact ih h.2

theorem setE_eq_append_of_not_mem {c : List (String × CacheEntry)} {k : String}
    (e : CacheEntry) (h : k ∉ cacheKeys c) : setE c k e = c ++ [(k, e)] := by
  induction c with
  | nil => rfl
  | cons p rest ih =>
      obtain ⟨k', e'⟩ := p
      rw [cacheKeys_cons, List.mem_cons] at h
      push_neg at h
      rw [setE, if_neg (fun he => h.1 he.symm), List.cons_append, ih h.2]

theorem length_setE_le (c : List (String × CacheEntry)) (k : String) (e : CacheEntry) :
    (setE c k e).length ≤ c.length + 1 := by
  induction c with
  | nil => simp [setE]
  | cons p rest ih =>
      obtain ⟨k', e'⟩ := p
      by_cases h : k' = k <;> simp [setE, h] <;> omega

theorem length_setE_of_mem {c : List (String × CacheEntry)} {k : String}
    (e : CacheEntry) (h : k ∈ cacheKeys c) : (setE c k e).length = c.length := by
  induction c with
  | nil => simp at h
  | cons p rest ih =>
      obtain ⟨k', e'⟩ := p
      by_cases hk : k' = k
      · simp [setE, hk]
      · rw [cacheKeys_cons, List.mem_cons] at h
        rcases h with h | h
        · exact absurd h.symm hk
        · simp [setE, hk, ih h]

theorem cacheKeys_setE_of_mem {c : List (String × CacheEntry)} {k : String}
    (e : CacheEntry) (h : k ∈ cacheKeys c) : cacheKeys (setE c k e) = cacheKeys c := by
  induction c with
  | nil => simp at h
  | cons p rest ih =>
      obtain ⟨k', e'⟩ := p
      by_cases hk : k' = k
      · simp [setE, hk]
      · rw [cacheKeys_cons, List.mem_cons] at h
        rcases h with h | h
        · exact absurd h.symm hk
        · simp [setE, hk, ih h]

theorem mem_cacheKeys_setE {c : List (String × CacheEntry)} {k k' : String} {e : CacheEntry}
    (h : k' ∈ cacheKeys (setE c k e)) : k' = k ∨ k' ∈ cacheKeys c := by
  induction c with
  | nil => simpa [setE] using h
  | cons p rest ih =>
      obtain ⟨kh, eh⟩ := p
      by_cases hk : kh = k
      · rw [setE, if_pos hk] at h
        rw [cacheKeys_cons, List.mem_cons] at h
        rcases h with h | h
        · exact Or.inl h
        · exact Or.inr (by rw [cacheKeys_cons, List.mem_cons]; exact Or.inr h)
      · rw [setE, if_neg hk] at h
        rw [cacheKeys_cons, List.mem_cons] at h
        rcases h with h | h
        · exact Or.inr (by rw [cacheKeys_cons, List.mem_cons]; exact Or.inl h)
        · rcases ih h with h' | h'
          · exact Or.inl h'
          · exact Or.inr (by rw [cacheKeys_cons, List.mem_cons]; exact Or.inr h')

theorem mem_cacheKeys_eraseE {c : List (String × CacheEntry)} {k k' : String}
    (h : k' ∈ cacheKeys (eraseE c k)) : k' ∈ cacheKeys c := by
  induction c with
  | nil => simpa [eraseE] using h
  | cons p rest ih =>
      obtain ⟨kh, eh⟩ := p
      rw [cacheKeys_cons, List.mem_cons]
      by_cases hk : kh = k
      · rw [eraseE, if_pos hk] at h
        exact Or.inr h
      · rw [eraseE, if_neg hk, cacheKeys_cons, List.mem_cons] at h
        rcases h with h | h
        · exact Or.inl h
        · exact Or.inr (ih h)

theorem length_eraseE_of_mem {c : List (String × CacheEntry)} {k : String}
    (h : k ∈ cacheKeys c) : (eraseE c k).length + 1 = c.length := by
  induction c with
  | nil => simp at h
  | cons p rest ih =>
      obtain ⟨k', e'⟩ := p
      by_cases hk : k' = k
      · simp [eraseE, hk]
      · rw [cacheKeys_cons, List.mem_cons] at h
        rcases h with h | h
        · exact absurd h.symm hk
        · simp [eraseE, hk, ih h]

/-! ### C7: get-after-set round trip -/

/-- C7: for every (config, width, height) triple and content, `Get`
immediately after `Set` with the same triple returns `(content, true)`
as long as the elapsed time does not exceed the TTL (nothing else runs in
between, so no eviction can intervene). -/
theorem C7_get_after_set (sc : StructureCache) (p : ProjectConfig) (w h : Int)
    (tset tget : Nat) (content : String)
    (httl : tget - tset ≤ sc.ttl) :
    ((sc.SetStructure p w h tset content).GetStructure p w h tget).1 = content ∧
    ((sc.SetStructure p w h tset content).GetStructure p w h tget).2.1 = true := by
  unfold StructureCache.GetStructure StructureCache.SetStructure
    StructureCache.GetStructureK StructureCache.SetStructureK
  simp only [lookupE_setE_self]
  split
  next hc => exact absurd hc (by simp; omega)
  next => simp

/-- C7 witness: the theorem at a fresh cache of capacity 4, TTL 100,
set at time 5 and read back at time 50. -/
theorem C7_get_after_set_witness :
    (((NewStructureCache 4 100).SetStructure demoProject 80 24 5 "tree").GetStructure
      demoProject 80 24 50).1 = "tree" ∧
    (((NewStructureCache 4 100).SetStructure demoProject 80 24 5 "tree").GetStructure
      demoProject 80 24 50).2.1 = true :=
  C7_get_after_set (NewStructureCache 4 100) demoProject 80 24 5 50 "tree" (by decide)

/-! ### C6: miss/hit/TTL semantics of `GetStructure` -/

/-- C6: for any cache state with distinct map keys (as a Go map
guarantees): a `Get` misses and changes nothing when no entry exists for
the computed key; a `Get` within the TTL hits and increments exactly that
entry's hit counter; and a `Get` after the entry's age exceeds the TTL
misses and removes the entry, even when a `Get` just before the TTL
elapsed was a hit. -/
theorem C6_ttl_expiry (sc : StructureCache) (p : ProjectConfig) (w h : Int)
    (hnd : (cacheKeys sc.cache).Nodup) :
    (∀ now, lookupE sc.cache (generateKey p w h) = none →
      sc.GetStructure p w h now = ("", false, sc)) ∧
    (∀ now e, lookupE sc.cache (generateKey p w h) = some e →
      now - e.timestamp ≤ sc.ttl →
      (sc.GetStructure p w h now).1 = e.content ∧
      (sc.GetStructure p w h now).2.1 = true ∧
      lookupE (sc.GetStructure p w h now).2.2.cache (generateKey p w h)
        = some { e with hits := e.hits + 1 }) ∧
    (∀ now1 now2 e, lookupE sc.cache (generateKey p w h) = some e →
      now1 - e.timestamp ≤ sc.ttl → sc.ttl < now2 - e.timestamp →
      (sc.GetStructure p w h now1).2.1 = true ∧
      ((sc.GetStructure p w h now1).2.2.GetStructure p w h now2).2.1 = false ∧
      lookupE ((sc.GetStructure p w h now1).2.2.GetStructure p w h now2).2.2.cache
        (generateKey p w h) = none) := by
  refine ⟨?_, ?_, ?_⟩
  · intro now hnone
    unfold StructureCache.GetStructure StructureCache.GetStructureK
    simp [hnone]
  · intro now e hsome hfresh
    unfold StructureCache.GetStructure StructureCache.GetStructureK
    simp only [hsome]
    split
    next hc => exact absurd hc (by simp; omega)
    next => simp [lookupE_setE_self]
  · intro now1 now2 e hsome hfresh hstale
    unfold StructureCache.GetStructure StructureCache.GetStructureK
    simp only [hsome]
    split
    next hc => exact absurd hc (by simp; omega)
    next =>
      simp only [lookupE_setE_self]
      split
      next =>
        refine ⟨by trivial, by trivial, ?_⟩
        exact lookupE_eraseE_self (by
          rw [cacheKeys_setE_of_mem _ (mem_cacheKeys_of_lookupE_some hsome)]
          exact hnd)
      next hc => exact absurd (by omega) hc

/-! ### Eviction-selection lemmas -/

theorem selectGo_mem (best : String × CacheEntry) (rest : List (String × CacheEntry)) :
    selectGo best rest = best ∨ selectGo best rest ∈ rest := by
  induction rest generalizing best with
  | nil => exact Or.inl rfl
  | cons x rest ih =>
      rw [selectGo]
      rcases ih (if entLT x.2 best.2 then x else best) with h | h
      · rw [h]
        split
        · exact Or.inr (List.mem_cons_self x rest)
        · exact Or.inl rfl
      · exact Or.inr (List.mem_cons_of_mem x h)

theorem mem_of_selectEvict {c : List (String × CacheEntry)} {b : String × CacheEntry}
    (h : selectEvict c = some b) : b ∈ c := by
  cases c with
  | nil => simp [selectEvict] at h
  | cons x rest =>
      rw [selectEvict, Option.some.injEq] at h
      rcases selectGo_mem x rest with h' | h'
      · rw [← h, h']
        exact List.mem_cons_self x rest
      · exact List.mem_cons_of_mem x (h ▸ h')

theorem length_evictLeastUsed {c : List (String × CacheEntry)}
    (hne : c ≠ []) (hk : ∀ k ∈ cacheKeys c, k ≠ "") :
    (evictLeastUsed c).length + 1 = c.length := by
  cases c with
  | nil => exact absurd rfl hne
  | cons x rest =>
      rcases hsg : selectGo x rest with ⟨k0, e0⟩
      have hmem : selectGo x rest ∈ x :: rest := by
        rcases selectGo_mem x rest with h | h
        · rw [h]; exact List.mem_cons_self x rest
        · exact List.mem_cons_of_mem x h
      rw [hsg] at hmem
      have hk0 : k0 ∈ cacheKeys (x :: rest) := List.mem_map_of_mem Prod.fst hmem
      rw [evictLeastUsed]
      simp only [selectEvict, hsg]
      rw [if_neg (hk k0 hk0)]
      exact length_eraseE_of_mem hk0

theorem mem_cacheKeys_evictLeastUsed {c : List (String × CacheEntry)} {k' : String}
    (h : k' ∈ cacheKeys (evictLeastUsed c)) : k' ∈ cacheKeys c := by
  rw [evictLeastUsed] at h
  cases hsel : selectEvict c with
  | none => simp only [hsel] at h; exact h
  | some b =>
      obtain ⟨k0, e0⟩ := b
      simp only [hsel] at h
      by_cases hk0 : k0 = ""
      · rw [if_pos hk0] at h; exact h
      · rw [if_neg hk0] at h; exact mem_cacheKeys_eraseE h

/-- The generated cache key is a JSON object string, never empty — so the
`oldestKey != ""` guard in `evictLeastUsed` never suppresses an
eviction. -/
theorem generateKey_ne_empty (p : ProjectConfig) (w h : Int) : generateKey p w h ≠ "" := by
  intro hcon
  have hlen := congrArg String.length hcon
  rw [generateKey, keyPrefix, String.length_append, String.length_append] at hlen
  have h15 : ("\x7b\"projectHash\":" : String).length = 15 := rfl
  have h0 : ("" : String).length = 0 := rfl
  omega

/-! ### C10: the cache never exceeds its capacity -/

theorem applyCacheOp_inv (sc : StructureCache) (op : CacheOp)
    (hms : 1 ≤ sc.maxSize)
    (hlen : sc.cache.length ≤ sc.maxSize)
    (hkeys : ∀ k ∈ cacheKeys sc.cache, k ≠ "") :
    (applyCacheOp sc op).maxSize = sc.maxSize ∧
    (applyCacheOp sc op).cache.length ≤ sc.maxSize ∧
    (∀ k ∈ cacheKeys (applyCacheOp sc op).cache, k ≠ "") := by
  cases op with
  | get p w h now =>
      unfold applyCacheOp StructureCache.GetStructure StructureCache.GetStructureK
      cases hl : lookupE sc.cache (generateKey p w h) with
      | none => simp only [hl]; exact ⟨trivial, hlen, hkeys⟩
      | some e =>
          simp only [hl]
          split
          next =>
            refine ⟨by trivial, ?_, ?_⟩
            · show (eraseE sc.cache (generateKey p w h)).length ≤ sc.maxSize
              have := length_eraseE_of_mem (mem_cacheKeys_of_lookupE_some hl)
              omega
            · intro k hk'
              exact hkeys k (mem_cacheKeys_eraseE hk')
          next =>
            refine ⟨by trivial, ?_, ?_⟩
            · show (setE sc.cache (generateKey p w h)
                { content := e.content, timestamp := e.timestamp, hits := e.hits + 1 }).length
                  ≤ sc.maxSize
              rw [length_setE_of_mem _ (mem_cacheKeys_of_lookupE_some hl)]
              exact hlen
            · intro k hk'
              have hk2 : k ∈ cacheKeys (setE sc.cache (generateKey p w h)
                { content := e.content, timestamp := e.timestamp, hits := e.hits + 1 }) := hk'
              rw [cacheKeys_setE_of_mem _ (mem_cacheKeys_of_lookupE_some hl)] at hk2
              exact hkeys k hk2
  | set p w h now content =>
      unfold applyCacheOp StructureCache.SetStructure StructureCache.SetStructureK
      by_cases hcap : sc.maxSize ≤ sc.cache.length
      · simp only [if_pos hcap]
        have hne : sc.cache ≠ [] := by
          intro h0
          rw [h0] at hcap
          simp at hcap
          omega
        have hlenE := length_evictLeastUsed hne hkeys
        have hsetE := length_setE_le (evictLeastUsed sc.cache)
          (generateKey p w h) ⟨content, now, 0⟩
        refine ⟨by trivial, ?_, ?_⟩
        · show (setE (evictLeastUsed sc.cache) (generateKey p w h)
            ⟨content, now, 0⟩).length ≤ sc.maxSize
          omega
        · intro k hk'
          have hk2 : k ∈ cacheKeys (setE (evictLeastUsed sc.cache) (generateKey p w h)
            ⟨content, now, 0⟩) := hk'
          rcases mem_cacheKeys_setE hk2 with h' | h'
          · exact h' ▸ generateKey_ne_empty p w h
          · exact hkeys k (mem_cacheKeys_evictLeastUsed h')
      · simp only [if_neg hcap]
        have hsetE := length_setE_le sc.cache (generateKey p w h) ⟨content, now, 0⟩
        refine ⟨by trivial, ?_, ?_⟩
        · show (setE sc.cache (generateKey p w h) ⟨content, now, 0⟩).length ≤ sc.maxSize
          omega
        · intro k hk'
          have hk2 : k ∈ cacheKeys (setE sc.cache (generateKey p w h)
            ⟨content, now, 0⟩) := hk'
          rcases mem_cacheKeys_setE hk2 with h' | h'
          · exact h' ▸ generateKey_ne_empty p w h
          · exact hkeys k h'
  | clear =>
      refine ⟨rfl, by simp [applyCacheOp, StructureCache.Clear], ?_⟩
      intro k hk'
      simp [applyCacheOp, StructureCache.Clear] at hk'
  | cleanupExpired now =>
      refine ⟨rfl, ?_, ?_⟩
      · exact le_trans (List.length_filter_le _ _) hlen
      · intro k hk'
        apply hkeys k
        simp only [applyCacheOp, StructureCache.CleanupExpired, cacheKeys, List.mem_map] at hk' ⊢
        obtain ⟨x, hx, hfx⟩ := hk'
        exact ⟨x, List.mem_of_mem_filter hx, hfx⟩

theorem runCacheOps_inv (ops : List CacheOp) :
    ∀ sc : StructureCache, 1 ≤ sc.maxSize →
      sc.cache.length ≤ sc.maxSize → (∀ k ∈ cacheKeys sc.cache, k ≠ "") →
      (runCacheOps sc ops).maxSize = sc.maxSize ∧
      (runCacheOps sc ops).cache.length ≤ sc.maxSize ∧
      (∀ k ∈ cacheKeys (runCacheOps sc ops).cache, k ≠ "") := by
  induction ops with
  | nil => intro sc _ hlen hkeys; exact ⟨rfl, hlen, hkeys⟩
  | cons op rest ih =>
      intro sc hms hlen hkeys
      obtain ⟨hm1, hl1, hk1⟩ := applyCacheOp_inv sc op hms hlen hkeys
      obtain ⟨hm2, hl2, hk2⟩ := ih (applyCacheOp sc op) (hm1 ▸ hms) (hm1 ▸ hl1) hk1
      exact ⟨hm2.trans hm1, hm1 ▸ hl2, hk2⟩

/-- C10: for every cache created by `NewStructureCache` with capacity at
least 1, after any finite sequence of `GetStructure`, `SetStructure`,
`Clear`, and `CleanupExpired` calls the number of stored entries never
exceeds the capacity. -/
theorem C10_bounded_size (maxSize ttl : Nat) (hms : 1 ≤ maxSize) (ops : List CacheOp) :
    (runCacheOps (NewStructureCache maxSize ttl) ops).cache.length ≤ maxSize :=
  (runCacheOps_inv ops (NewStructureCache maxSize ttl) hms
    (by simp [NewStructureCache]) (by simp [NewStructureCache, cacheKeys])).2.1

/-- C10 witness: a capacity-1 cache with two sets on distinct keys and a
read stays within its bound. -/
theorem C10_bounded_size_witness :
    1 ≤ 1 ∧
    (runCacheOps (NewStructureCache 1 50)
      [.set demoProject 1 1 0 "a", .set demoProject 2 2 1 "b",
       .get demoProject 1 1 2]).cache.length ≤ 1 :=
  ⟨by decide, C10_bounded_size 1 50 (by decide) _⟩

/-! ### C3: filling the cache one past capacity -/

theorem entLT_self (e : CacheEntry) : entLT e e = false := by
  simp [entLT]

theorem selectGo_of_no_lt {best : String × CacheEntry} {rest : List (String × CacheEntry)}
    (h : ∀ x ∈ rest, entLT x.2 best.2 = false) : selectGo best rest = best := by
  induction rest with
  | nil => rfl
  | cons x rest ih =>
      rw [selectGo]
      simp only [h x (List.mem_cons_self x rest), Bool.false_eq_true, if_false]
      exact ih (fun y hy => h y (List.mem_cons_of_mem x hy))

/-- When the head entry beats every other entry under the eviction
order, `evictLeastUsed` removes exactly the head. -/
theorem evict_head_of_min {k0 : String} {e0 : CacheEntry}
    {tail : List (String × CacheEntry)} (hk0 : k0 ≠ "")
    (hmin : ∀ x ∈ tail, entLT x.2 e0 = false) :
    evictLeastUsed ((k0, e0) :: tail) = tail := by
  have hmin' : ∀ x ∈ tail, entLT x.2 ((k0, e0) : String × CacheEntry).2 = false := hmin
  rw [evictLeastUsed]
  simp only [selectEvict, selectGo_of_no_lt hmin']
  rw [if_neg hk0, eraseE, if_pos rfl]

/-- Successive `SetStructure` calls below capacity with pairwise-fresh
keys append their entries in call order with zero hits. -/
theorem runSets_fresh (ops : List SetOp) : ∀ sc : StructureCache,
    sc.cache.length + ops.length ≤ sc.maxSize →
    (∀ o ∈ ops, o.key ∉ cacheKeys sc.cache) →
    (ops.map SetOp.key).Nodup →
    (runSets sc ops).cache = sc.cache ++ ops.map (fun o => (o.key, o.entry)) ∧
    (runSets sc ops).maxSize = sc.maxSize := by
  induction ops with
  | nil =>
      intro sc _ _ _
      exact ⟨by simp [runSets], rfl⟩
  | cons o rest ih =>
      intro sc hlen hfresh hnodup
      have hcap : ¬ (sc.maxSize ≤ sc.cache.length) := by
        simp only [List.length_cons] at hlen
        omega
      have hstep : sc.SetStructure o.project o.width o.height o.time o.content
          = { sc with cache := sc.cache ++ [(o.key, o.entry)] } := by
        unfold StructureCache.SetStructure StructureCache.SetStructureK
        simp only [if_neg hcap]
        rw [show generateKey o.project o.width o.height = o.key from rfl,
          show ({ content := o.content, timestamp := o.time, hits := 0 } : CacheEntry)
            = o.entry from rfl,
          setE_eq_append_of_not_mem _ (hfresh o (List.mem_cons_self o rest))]
      have hnodup' := hnodup
      rw [List.map_cons, List.nodup_cons] at hnodup'
      obtain ⟨hk_not, hnodup_rest⟩ := hnodup'
      obtain ⟨h1, h2⟩ := ih { sc with cache := sc.cache ++ [(o.key, o.entry)] }
        (by simp only [List.length_append, List.length_cons] at hlen ⊢; simp; omega)
        (by
          intro o' ho'
          rw [cacheKeys_append]
          simp only [List.mem_append]
          push_neg
          refine ⟨hfresh o' (List.mem_cons_of_mem o ho'), ?_⟩
          simp only [cacheKeys_cons, cacheKeys_nil, List.mem_singleton]
          intro hcon
          exact hk_not (hcon ▸ List.mem_map_of_mem SetOp.key ho'))
        hnodup_rest
      have hfold : runSets sc (o :: rest)
          = runSets { sc with cache := sc.cache ++ [(o.key, o.entry)] } rest := by
        rw [runSets, runSets, List.foldl_cons, hstep]
      constructor
      · rw [hfold, h1]
        simp
      · rw [hfold, h2]

/-- C3: writing `maxSize + 1` entries with pairwise-distinct keys and
strictly increasing timestamps into a fresh cache of capacity
`maxSize ≥ 1` leaves exactly `maxSize` entries: the final insert evicts
exactly the first key — whose entry has the minimal (hit count,
timestamp) under the eviction order among all entries present just
before that insert (all hit counts tie at 0, so the oldest-insertion
tie-break selects it) — and stores the remaining `maxSize` keys in
order. -/
theorem C3_capacity_eviction (maxSize ttl : Nat) (hms : 1 ≤ maxSize)
    (op0 : SetOp) (opsMid : List SetOp) (opLast : SetOp)
    (hcount : opsMid.length + 1 = maxSize)
    (hnodup : ((op0 :: (opsMid ++ [opLast])).map SetOp.key).Nodup)
    (htimes : ((op0 :: (opsMid ++ [opLast])).map SetOp.time).Pairwise (· < ·)) :
    (runSets (NewStructureCache maxSize ttl) (op0 :: (opsMid ++ [opLast]))).cache.length
        = maxSize ∧
    cacheKeys (runSets (NewStructureCache maxSize ttl)
        (op0 :: (opsMid ++ [opLast]))).cache = (opsMid ++ [opLast]).map SetOp.key ∧
    (op0.key, op0.entry)
        ∈ (runSets (NewStructureCache maxSize ttl) (op0 :: opsMid)).cache ∧
    (∀ q ∈ (runSets (NewStructureCache maxSize ttl) (op0 :: opsMid)).cache,
        entLT q.2 op0.entry = false) := by
  -- decompose the distinctness and time hypotheses
  have hnodup' := hnodup
  rw [List.map_cons, List.nodup_cons, List.map_append] at hnodup'
  obtain ⟨hk0_not, hrest_nodup⟩ := hnodup'
  have hmid_nodup : (opsMid.map SetOp.key).Nodup :=
    (List.nodup_append.mp hrest_nodup).1
  have hlast_not : opLast.key ∉ opsMid.map SetOp.key := by
    intro hcon
    have hdisj := (List.nodup_append.mp hrest_nodup).2.2
    exact hdisj hcon (by simp)
  have hk0_not_mid : op0.key ∉ opsMid.map SetOp.key := fun hcon =>
    hk0_not (List.mem_append_left _ hcon)
  have htimes' := htimes
  rw [List.map_cons, List.pairwise_cons] at htimes'
  have ht0 : ∀ o ∈ opsMid, op0.time < o.time := by
    intro o ho
    exact htimes'.1 o.time (by
      rw [List.map_append]
      exact List.mem_append_left _ (List.mem_map_of_mem SetOp.time ho))
  -- the cache after the first maxSize inserts
  have hprefix_nodup : ((op0 :: opsMid).map SetOp.key).Nodup := by
    rw [List.map_cons, List.nodup_cons]
    exact ⟨hk0_not_mid, hmid_nodup⟩
  obtain ⟨hpre_cache, hpre_max⟩ := runSets_fresh (op0 :: opsMid)
    (NewStructureCache maxSize ttl)
    (by simp [NewStructureCache]; omega)
    (by intro o _; simp [NewStructureCache, cacheKeys])
    hprefix_nodup
  rw [show (NewStructureCache maxSize ttl).cache = [] from rfl, List.nil_append]
    at hpre_cache
  have hpre_len : (runSets (NewStructureCache maxSize ttl) (op0 :: opsMid)).cache.length
      = maxSize := by
    rw [hpre_cache]
    simp [hcount]
  -- minimality of the first entry among the pre-insert entries
  have hmin_pre : ∀ q ∈ (runSets (NewStructureCache maxSize ttl) (op0 :: opsMid)).cache,
      entLT q.2 op0.entry = false := by
    intro q hq
    rw [hpre_cache] at hq
    obtain ⟨o, ho, rfl⟩ := List.mem_map.mp hq
    rcases List.mem_cons.mp ho with rfl | ho'
    · exact entLT_self _
    · have := ht0 o ho'
      simp only [SetOp.entry, entLT]
      simp
      omega
  have hmin_tail : ∀ x ∈ opsMid.map (fun o => (o.key, o.entry)),
      entLT x.2 op0.entry = false := by
    intro x hx
    apply hmin_pre
    rw [hpre_cache, List.map_cons]
    exact List.mem_cons_of_mem _ hx
  have hk0ne : op0.key ≠ "" := generateKey_ne_empty op0.project op0.width op0.height
  have hlast_not_keys : opLast.key ∉ cacheKeys (opsMid.map (fun o => (o.key, o.entry))) := by
    have hkeq : cacheKeys (opsMid.map (fun o => (o.key, o.entry))) = opsMid.map SetOp.key := by
      simp [cacheKeys, List.map_map]
    rw [hkeq]
    exact hlast_not
  -- the final insert evicts the head and appends the last entry
  have happly : ∀ sc : StructureCache, sc.maxSize = maxSize →
      sc.cache.length = maxSize →
      sc.cache = (op0.key, op0.entry) :: opsMid.map (fun o => (o.key, o.entry)) →
      (sc.SetStructure opLast.project opLast.width opLast.height opLast.time
        opLast.content).cache
        = opsMid.map (fun o => (o.key, o.entry)) ++ [(opLast.key, opLast.entry)] := by
    intro sc hmax hlen hcache
    have hcond : sc.maxSize ≤ sc.cache.length := by omega
    unfold StructureCache.SetStructure StructureCache.SetStructureK
    rw [if_pos hcond, hcache, evict_head_of_min hk0ne hmin_tail]
    show setE (opsMid.map (fun o => (o.key, o.entry))) opLast.key opLast.entry
        = opsMid.map (fun o => (o.key, o.entry)) ++ [(opLast.key, opLast.entry)]
    exact setE_eq_append_of_not_mem _ hlast_not_keys
  have hfinal : (runSets (NewStructureCache maxSize ttl)
      (op0 :: (opsMid ++ [opLast]))).cache
      = opsMid.map (fun o => (o.key, o.entry)) ++ [(opLast.key, opLast.entry)] := by
    rw [show (op0 :: (opsMid ++ [opLast])) = (op0 :: opsMid) ++ [opLast] from rfl,
      runSets, List.foldl_append, List.foldl_cons, List.foldl_nil]
    exact happly (runSets (NewStructureCache maxSize ttl) (op0 :: opsMid))
      hpre_max hpre_len hpre_cache
  refine ⟨?_, ?_, ?_, hmin_pre⟩
  · rw [hfinal]
    simp [hcount]
  · rw [hfinal, cacheKeys_append]
    simp [cacheKeys, List.map_map, List.map_append]
  · rw [hpre_cache, List.map_cons]
    exact List.mem_cons_self _ _

/-- Distinct viewports give distinct cache keys for the same project:
the keys share the project prefix and differ in the dimension suffix,
and string append is left-cancellative. -/
theorem generateKey_ne_of_dims (p : ProjectConfig) {w1 h1 w2 h2 : Int}
    (hne : dimsSuffix w1 h1 ≠ dimsSuffix w2 h2) :
    generateKey p w1 h1 ≠ generateKey p w2 h2 := by
  intro he
  apply hne
  have hd := congrArg String.data he
  rw [generateKey, generateKey, String.data_append, String.data_append] at hd
  exact String.ext (List.append_cancel_left hd)

set_option maxRecDepth 20000 in
/-- C3 witness: a fresh capacity-2 cache filled with three distinct keys
(same project, three viewports) at times 0 < 1 < 2. -/
theorem C3_capacity_eviction_witness :
    (runSets (NewStructureCache 2 100) (setOpA :: ([setOpB] ++ [setOpC]))).cache.length = 2 ∧
    cacheKeys (runSets (NewStructureCache 2 100)
        (setOpA :: ([setOpB] ++ [setOpC]))).cache = ([setOpB] ++ [setOpC]).map SetOp.key ∧
    (setOpA.key, setOpA.entry)
      ∈ (runSets (NewStructureCache 2 100) (setOpA :: [setOpB])).cache ∧
    (∀ q ∈ (runSets (NewStructureCache 2 100) (setOpA :: [setOpB])).cache,
      entLT q.2 setOpA.entry = false) :=
  C3_capacity_eviction 2 100 (by decide) setOpA [setOpB] setOpC
    (by decide)
    (by
      have h12 : generateKey demoProject 1 1 ≠ generateKey demoProject 2 2 :=
        generateKey_ne_of_dims demoProject (by decide)
      have h13 : generateKey demoProject 1 1 ≠ generateKey demoProject 3 3 :=
        generateKey_ne_of_dims demoProject (by decide)
      have h23 : generateKey demoProject 2 2 ≠ generateKey demoProject 3 3 :=
        generateKey_ne_of_dims demoProject (by decide)
      simp [setOpA, setOpB, setOpC, SetOp.key, List.nodup_cons]
      exact ⟨⟨h12, h13⟩, h23⟩)
    (by decide)

/-! ### C5: which configuration fields the cache key depends on -/

theorem map_appHashJSON_congr {l1 l2 : List Application}
    (h : l1.map (fun a => (a.type, a.name)) = l2.map (fun a => (a.type, a.name))) :
    l1.map appHashJSON = l2.map appHashJSON := by
  induction l1 generalizing l2 with
  | nil => cases l2 with
      | nil => rfl
      | cons b bs => simp at h
  | cons a as ih =>
      cases l2 with
      | nil => simp at h
      | cons b bs =>
          simp only [List.map_cons, List.cons.injEq, Prod.mk.injEq] at h
          obtain ⟨⟨ht, hn⟩, htail⟩ := h
          simp only [List.map_cons, List.cons.injEq]
          exact ⟨by simp [appHashJSON, ht, hn], ih htail⟩

theorem appsHashJSON_congr {l1 l2 : List Application}
    (h : l1.map (fun a => (a.type, a.name)) = l2.map (fun a => (a.type, a.name))) :
    appsHashJSON l1 = appsHashJSON l2 := by
  cases l1 with
  | nil => cases l2 with
      | nil => rfl
      | cons b bs => simp at h
  | cons a as =>
      cases l2 with
      | nil => simp at h
      | cons b bs =>
          have hmap := map_appHashJSON_congr h
          simp only [appsHashJSON]
          rw [hmap]

/-- C5 (amended): two configurations agreeing on project name,
architecture, the ordered (application kind, application name) list, the
docker/compose/Pulumi/Terraform flags *and the cloud-provider field*, and
the CI provider and feature list compute the same cache key at every
viewport, whatever other fields (e.g. the free-text description) do. -/
theorem C5_key_ignores_unlisted_fields (p1 p2 : ProjectConfig) (w h : Int)
    (hname : p1.name = p2.name)
    (harch : p1.architecture = p2.architecture)
    (happs : p1.applications.map (fun a => (a.type, a.name))
      = p2.applications.map (fun a => (a.type, a.name)))
    (hd : p1.infrastructure.docker = p2.infrastructure.docker)
    (hdc : p1.infrastructure.dockerCompose = p2.infrastructure.dockerCompose)
    (hp : p1.infrastructure.pulumi = p2.infrastructure.pulumi)
    (ht : p1.infrastructure.terraform = p2.infrastructure.terraform)
    (hcp : p1.infrastructure.cloudProvider = p2.infrastructure.cloudProvider)
    (hprov : p1.ciPipeline.provider = p2.ciPipeline.provider)
    (hfeat : p1.ciPipeline.features = p2.ciPipeline.features) :
    generateKey p1 w h = generateKey p2 w h := by
  have hjson : hashDataJSON p1 = hashDataJSON p2 := by
    rw [hashDataJSON, hashDataJSON, hname, harch, appsHashJSON_congr happs,
      hd, hdc, hp, ht, hcp, hprov, hfeat]
  rw [generateKey, generateKey, keyPrefix, keyPrefix, hashProject, hashProject, hjson]

/-- C5 witness: the theorem applied to `demoProject` and its
description-only variant: the keys coincide. -/
theorem C5_key_ignores_unlisted_fields_witness :
    generateKey demoProject 80 24 = generateKey demoProjectDescribed 80 24 :=
  C5_key_ignores_unlisted_fields demoProject demoProjectDescribed 80 24
    rfl rfl rfl rfl rfl rfl rfl rfl rfl rfl

set_option maxRecDepth 200000 in
set_option maxHeartbeats 2000000 in
/-- C5 counterexample: `demoProject` and `demoProjectVercel` agree on
every field the claim lists — name, architecture, the (kind, name) pairs,
the docker/compose/Pulumi/Terraform flags, and the CI provider and
feature list — and differ only in the cloud-provider field, which is
outside that list; yet the computed cache keys differ, because
`hashProject` also hashes `Infrastructure.CloudProvider`. -/
theorem C5_counterexample :
    demoProject.name = demoProjectVercel.name ∧
    demoProject.architecture = demoProjectVercel.architecture ∧
    demoProject.applications.map (fun a => (a.type, a.name))
      = demoProjectVercel.applications.map (fun a => (a.type, a.name)) ∧
    demoProject.infrastructure.docker = demoProjectVercel.infrastructure.docker ∧
    demoProject.infrastructure.dockerCompose = demoProjectVercel.infrastructure.dockerCompose ∧
    demoProject.infrastructure.pulumi = demoProjectVercel.infrastructure.pulumi ∧
    demoProject.infrastructure.terraform = demoProjectVercel.infrastructure.terraform ∧
    demoProject.ciPipeline = demoProjectVercel.ciPipeline ∧
    generateKey demoProject 80 24 ≠ generateKey demoProjectVercel 80 24 := by
  refine ⟨rfl, rfl, rfl, rfl, rfl, rfl, rfl, rfl, ?_⟩
  decide

/-! ### C1: commit / back-navigation round trip -/

/-- C1: committing an application (the configuration-complete event
appends the in-progress application and clears the slot) followed
immediately by backward navigation from the "add another?" screen removes
exactly the last committed application, restores `CurrentApp` to that
application (hence with its exact kind), leaves every earlier list
element unchanged so the list returns to its pre-commit value, and its
length to the pre-commit length; with an empty list, backward navigation
from that screen mutates no list element. -/
theorem C1_commit_back_roundtrip :
    (∀ (m : Model) (a : Application) (appName : String) (options : List (String × OptionVal)),
      m.state.currentScreen = AppConfigScreen →
      m.state.currentApp = some a →
      (m.Update (.AppConfigCompleteMsg appName options)).state.project.applications.length
          = m.state.project.applications.length + 1 ∧
      ((m.Update (.AppConfigCompleteMsg appName options)).Update .KeyBackspace).state.project.applications
          = m.state.project.applications ∧
      ((m.Update (.AppConfigCompleteMsg appName options)).Update .KeyBackspace).state.currentApp
          = some { a with name := appName, options := options } ∧
      (((m.Update (.AppConfigCompleteMsg appName options)).Update .KeyBackspace).state.currentApp.map
          Application.type) = some a.type) ∧
    (∀ m : Model, m.state.currentScreen = AddAnotherAppScreen →
      m.state.project.applications = [] →
      (m.Update .KeyBackspace).state.project.applications = m.state.project.applications) := by
  constructor
  · intro m a appName options hs ha
    simp [Model.Update, Model.handleBackNavigation, hs, ha,
      List.getLast?_concat, List.dropLast_concat]
  · intro m hs he
    simp [Model.Update, Model.handleBackNavigation, hs, he]

/-- C1 witness: the round trip at the concrete wizard state reached by
the demo flow, committing under the name "web". -/
theorem C1_commit_back_roundtrip_witness :
    ((demoToAppConfig.Update (.AppConfigCompleteMsg "web" [])).Update
        .KeyBackspace).state.project.applications
      = demoToAppConfig.state.project.applications ∧
    (((demoToAppConfig.Update (.AppConfigCompleteMsg "web" [])).Update
        .KeyBackspace).state.currentApp.map Application.type)
      = some demoReactApp.type :=
  ⟨(C1_commit_back_roundtrip.1 demoToAppConfig demoReactApp "web" [] rfl rfl).2.1,
   (C1_commit_back_roundtrip.1 demoToAppConfig demoReactApp "web" [] rfl rfl).2.2.2⟩

/-! ### C2: the "add another?" view-model is not rebuilt on later firings -/

/-- C2 (refuted; code bug): after the second configuration-complete
transition fires, two applications are committed but the controller still
holds the "add another?" view-model constructed by the first firing with
count 1 — the `!exists` guard in the `AppConfigCompleteMsg` case of
`Model.Update` prevents the documented recomputation with the up-to-date
count. -/
theorem C2_addAnother_model_stale :
    (runMsgs twoAppFlowMsgs).state.currentScreen = AddAnotherAppScreen ∧
    (runMsgs twoAppFlowMsgs).state.project.applications.length = 2 ∧
    (runMsgs twoAppFlowMsgs).screenModels AddAnotherAppScreen
      = some (.AddAnotherAppModel 1 "turborepo") :=
  ⟨rfl, rfl, rfl⟩

/-! ### C9: the in-progress slot is tied to the configuration screens -/

/-- Inductive invariant: an in-progress application exists only on the
per-application configuration screen. -/
def InProgressOnConfig (m : Model) : Prop :=
  ∀ a, m.state.currentApp = some a → m.state.currentScreen = AppConfigScreen

theorem handleBackNavigation_inProgress (m : Model) (h : InProgressOnConfig m) :
    InProgressOnConfig m.handleBackNavigation := by
  unfold Model.handleBackNavigation
  split
  next heq => intro a ha; exact absurd ((h a ha).symm.trans heq) (by decide)
  next heq => intro a ha; exact absurd ((h a ha).symm.trans heq) (by decide)
  next heq =>
    split
    next => intro a ha; exact absurd ((h a ha).symm.trans heq) (by decide)
    next => intro a ha; exact absurd ((h a ha).symm.trans heq) (by decide)
  next => intro a ha; exact Option.noConfusion ha
  next heq =>
    split
    next => intro a _; rfl
    next => intro a ha; exact absurd ((h a ha).symm.trans heq) (by decide)
  next heq => intro a ha; exact absurd ((h a ha).symm.trans heq) (by decide)
  next heq => intro a ha; exact absurd ((h a ha).symm.trans heq) (by decide)
  next heq => intro a ha; exact absurd ((h a ha).symm.trans heq) (by decide)
  next heq => intro a ha; exact absurd ((h a ha).symm.trans heq) (by decide)
  next => exact h

theorem update_inProgress (m : Model) (msg : Msg) (h : InProgressOnConfig m) :
    InProgressOnConfig (m.Update msg) := by
  cases msg with
  | WindowSizeMsg w hh => exact h
  | KeyCtrlC => exact h
  | KeyEsc =>
      simp only [Model.Update]
      split
      next => exact h
      next => exact h
  | KeyBackspace => exact handleBackNavigation_inProgress m h
  | KeyOther k => exact h
  | WelcomeCompleteMsg =>
      simp only [Model.Update]
      split
      next heq => intro a ha; exact absurd ((h a ha).symm.trans heq) (by decide)
      next => exact h
  | ProjectSetupCompleteMsg n d =>
      simp only [Model.Update]
      split
      next heq => intro a ha; exact absurd ((h a ha).symm.trans heq) (by decide)
      next => exact h
  | ArchitectureSelectedMsg arch =>
      simp only [Model.Update]
      split
      next heq => intro a ha; exact absurd ((h a ha).symm.trans heq) (by decide)
      next => exact h
  | AppTypeSelectedMsg t =>
      simp only [Model.Update]
      split
      next => intro a _; rfl
      next => exact h
  | AppConfigCompleteMsg n o =>
      simp only [Model.Update]
      split
      next =>
        split
        next => intro a ha; exact Option.noConfusion ha
        next => exact h
      next => exact h
  | AddAnotherAppSelectedMsg act =>
      simp only [Model.Update]
      split
      next heq =>
        split
        next => intro a ha; exact absurd ((h a ha).symm.trans heq) (by decide)
        next => intro a ha; exact absurd ((h a ha).symm.trans heq) (by decide)
      next => exact h
  | DevToolsSelectedMsg t =>
      simp only [Model.Update]
      split
      next heq => intro a ha; exact absurd ((h a ha).symm.trans heq) (by decide)
      next => exact h
  | InfrastructureSelectedMsg o =>
      simp only [Model.Update]
      split
      next heq => intro a ha; exact absurd ((h a ha).symm.trans heq) (by decide)
      next => exact h
  | CIPipelineSelectedMsg p f =>
      simp only [Model.Update]
      split
      next heq => intro a ha; exact absurd ((h a ha).symm.trans heq) (by decide)
      next => exact h
  | AIToolsSelectedMsg e x =>
      simp only [Model.Update]
      split
      next heq => intro a ha; exact absurd ((h a ha).symm.trans heq) (by decide)
      next => exact h
  | GenerationCompleteMsg =>
      simp only [Model.Update]
      split
      next heq => intro a ha; exact absurd ((h a ha).symm.trans heq) (by decide)
      next => exact h

theorem foldl_update_inProgress (msgs : List Msg) :
    ∀ m : Model, InProgressOnConfig m → InProgressOnConfig (msgs.foldl Model.Update m) := by
  induction msgs with
  | nil => intro m h; exact h
  | cons msg rest ih =>
      intro m h
      exact ih (m.Update msg) (update_inProgress m msg h)

/-- C9: in every state reachable from the initial wizard state by any
sequence of controller events and back-navigations, the single
in-progress slot `CurrentApp` (an `Option`, so never more than one) is
occupied only when the current screen is the per-application
configuration screen or the "add another?" screen. -/
theorem C9_in_progress_only_on_config_screens (msgs : List Msg) (a : Application)
    (h : (runMsgs msgs).state.currentApp = some a) :
    (runMsgs msgs).state.currentScreen = AppConfigScreen ∨
    (runMsgs msgs).state.currentScreen = AddAnotherAppScreen :=
  Or.inl (foldl_update_inProgress msgs NewModel (fun _ ha => Option.noConfusion ha) a h)

/-- C9 witness: the demo flow ends on the configuration screen with the
react application in progress. -/
theorem C9_in_progress_only_on_config_screens_witness :
    (runMsgs demoToAppConfigMsgs).state.currentScreen = AppConfigScreen ∨
    (runMsgs demoToAppConfigMsgs).state.currentScreen = AddAnotherAppScreen :=
  C9_in_progress_only_on_config_screens demoToAppConfigMsgs demoReactApp rfl

/-- C6 witness: a one-entry cache (entry created at time 10, TTL 100)
read at time 50 (hit) and then at time 200 (miss, entry removed). -/
theorem C6_ttl_expiry_witness :
    (let sc : StructureCache :=
      ⟨[(generateKey demoProject 80 24, ⟨"tree", 10, 0⟩)], 4, 100⟩
     (sc.GetStructure demoProject 80 24 50).2.1 = true ∧
     ((sc.GetStructure demoProject 80 24 50).2.2.GetStructure demoProject 80 24 200).2.1 = false ∧
     lookupE ((sc.GetStructure demoProject 80 24 50).2.2.GetStructure
       demoProject 80 24 200).2.2.cache (generateKey demoProject 80 24) = none) :=
  (C6_ttl_expiry ⟨[(generateKey demoProject 80 24, ⟨"tree", 10, 0⟩)], 4, 100⟩
      demoProject 80 24 (by simp [cacheKeys])).2.2 50 200 ⟨"tree", 10, 0⟩
    (by simp [lookupE]) (by decide) (by decide)

end Teapot
